import Mathlib

/-!
Verification of the intentkit agent runtime manager.

Shallow embedding of the code in `app/core/engine.py`, `models/skill.py` and
`skills/enso/tokens.py`.  Pure Python functions become Lean functions; the
process-wide caches (`agents`, `agents_updated`) and the runtime-data store
become explicit fields of a `World` record threaded through the functions;
fallible calls become `Except`-valued parameters or results; wall-clock
timing (`time.perf_counter`) is abstracted: every timing line the source
appends is modelled by a dedicated payload-free segment constructor, since
the numeric duration is real time and carries no verifiable content.
Floating-point model parameters (temperature, penalties) are carried by the
source straight into the LLM constructor and are not otherwise inspected;
they are omitted from the embedding.
-/

namespace IntentKit

/-- Python string truthiness for an optional string field:
`None` and `""` are falsy, every other string is truthy. -/
def strTruthy : Option String → Bool
  | none => false
  | some s => s ≠ ""

/-! ## Enso token tool (`skills/enso/tokens.py`) -/

namespace Enso

/-- `underlying_tokens` may be a string or a list of strings
(`EnsoGetTokensInput.underlying_tokens`). -/
inductive UnderlyingArg
  | str (s : String)
  | ofList (l : List String)
deriving DecidableEq

/-- The keyword arguments accepted by `EnsoGetTokens._run`; an absent key
gives `kwargs.get(...) = None`, modelled by `none`. -/
structure Kwargs where
  chain_id : Option Int
  protocol_slug : Option String
  token_type : Option String
  underlying_tokens : Option UnderlyingArg
deriving DecidableEq

/-- Python truthiness of an optional int (`0` is falsy). -/
def intTruthy : Option Int → Bool
  | none => false
  | some n => n ≠ 0

/-- The query parameters built by `EnsoGetTokens._run`
(tokens.py lines 118-137): base params `page=1, includeMetadata=true`,
then each filter added only when its kwarg is truthy. -/
def runParams (k : Kwargs) : List (String × String) :=
  let ps := [("page", "1"), ("includeMetadata", "true")]
  let ps := if intTruthy k.chain_id then ps ++ [("chainId", toString (k.chain_id.getD 0))] else ps
  let ps := if strTruthy k.protocol_slug then ps ++ [("protocolSlug", k.protocol_slug.getD "")] else ps
  let ps := if strTruthy k.token_type then ps ++ [("type", k.token_type.getD "")] else ps
  match k.underlying_tokens with
  | some (.str s) => if s ≠ "" then ps ++ [("underlyingTokens", s)] else ps
  | some (.ofList l) => if l ≠ [] then ps ++ [("underlyingTokens", String.intercalate "," l)] else ps
  | none => ps

/-- `EnsoGetTokens._arun` (tokens.py lines 159-164): it receives the caller
kwargs but calls `self._run()` with no arguments, so every `kwargs.get`
inside `_run` yields `None`. -/
def arunParams (_k : Kwargs) : List (String × String) :=
  runParams ⟨none, none, none, none⟩

end Enso

/-! ## SQL LIKE matching, used by `clean_agent_memory`'s checkpoint deletes -/

/-- SQL `LIKE` on lists of characters: `%` matches any sequence,
`_` matches exactly one character, any other pattern character matches
itself.  Structural recursion on the pattern (the `%` case searches all
suffixes of the subject). -/
def likeMatchL : List Char → List Char → Bool
  | [], s => s.isEmpty
  | p :: ps, s =>
    if p = '%' then s.tails.any (fun t => likeMatchL ps t)
    else
      match s with
      | [] => false
      | c :: cs => (p == '_' || p == c) && likeMatchL ps cs

/-- SQL `s LIKE pat` on strings. -/
def likeMatch (pat s : String) : Bool :=
  likeMatchL pat.toList s.toList

/-- Boolean string-prefix test via the character lists. -/
def strIsPref (p s : String) : Bool :=
  p.toList.isPrefixOf s.toList

/-- A string free of the SQL LIKE wildcard characters. -/
def noWild (s : String) : Prop := '%' ∉ s.toList ∧ '_' ∉ s.toList

instance (s : String) : Decidable (noWild s) := by
  unfold noWild; infer_instance

theorem likeMatchL_plain (p : List Char) (hp : '%' ∉ p) (hu : '_' ∉ p) :
    ∀ s, likeMatchL p s = decide (p = s) := by
  induction p with
  | nil =>
    intro s
    cases s <;> simp [likeMatchL]
  | cons a ps ih =>
    intro s
    have ha : a ≠ '%' := fun h => hp (h ▸ List.mem_cons_self a ps)
    have hb : a ≠ '_' := fun h => hu (h ▸ List.mem_cons_self a ps)
    have hp' : '%' ∉ ps := fun h => hp (List.mem_cons_of_mem a h)
    have hu' : '_' ∉ ps := fun h => hu (List.mem_cons_of_mem a h)
    cases s with
    | nil => simp [likeMatchL, ha]
    | cons c cs =>
      have h1 : (a == '_') = false := beq_eq_false_iff_ne.mpr hb
      simp only [likeMatchL, if_neg ha, ih hp' hu', h1, Bool.false_or]
      by_cases hac : a = c
      · subst hac; simp [List.cons.injEq]
      · have h2 : (a == c) = false := beq_eq_false_iff_ne.mpr hac
        simp [h2, List.cons.injEq, hac]

theorem likeMatchL_nil_tail (s : List Char) :
    s.tails.any (fun t => likeMatchL [] t) = true := by
  induction s with
  | nil => simp [likeMatchL]
  | cons c cs ih => simp [List.tails, likeMatchL, ih]

theorem likeMatchL_percent (s : List Char) : likeMatchL ['%'] s = true := by
  simp [likeMatchL, likeMatchL_nil_tail]

theorem likeMatchL_pref (a : List Char) (hp : '%' ∉ a) (hu : '_' ∉ a) :
    ∀ s, likeMatchL (a ++ ['%']) s = a.isPrefixOf s := by
  induction a with
  | nil => intro s; simpa [List.isPrefixOf] using likeMatchL_percent s
  | cons x a' ih =>
    intro s
    have hx : x ≠ '%' := fun h => hp (h ▸ List.mem_cons_self x a')
    have hy : x ≠ '_' := fun h => hu (h ▸ List.mem_cons_self x a')
    have hp' : '%' ∉ a' := fun h => hp (List.mem_cons_of_mem x h)
    have hu' : '_' ∉ a' := fun h => hu (List.mem_cons_of_mem x h)
    cases s with
    | nil => simp [likeMatchL, List.isPrefixOf, hx]
    | cons c cs =>
      have h1 : (x == '_') = false := beq_eq_false_iff_ne.mpr hy
      simp [likeMatchL, List.isPrefixOf, hx, h1, ih hp' hu' cs]

/-! ## Skill-data rows (`models/skill.py`) and the purge (`clean_agent_memory`) -/

/-- One row of the `agent_skill_data` table (`AgentSkillData`), keyed by
`(agent_id, skill, key)`; the JSON payload and audit timestamps are
irrelevant to deletion and omitted. -/
structure AgentSkillRow where
  agent_id : String
  skill : String
  key : String
deriving DecidableEq

/-- One row of the `thread_skill_data` table (`ThreadSkillData`). -/
structure ThreadSkillRow where
  thread_id : String
  agent_id : String
  skill : String
  key : String
deriving DecidableEq

/-- The persisted state the purge touches: the two skill tables and the
three langgraph checkpoint tables (each checkpoint row reduced to its
`thread_id` key, the only column the deletes inspect). -/
structure DbState where
  agent_skill_data : List AgentSkillRow
  thread_skill_data : List ThreadSkillRow
  checkpoints : List String
  checkpoint_writes : List String
  checkpoint_blobs : List String
deriving DecidableEq

/-- `AgentSkillData.clean_data` (skill.py lines 96-99): delete every row of
`agent_skill_data` whose `agent_id` matches.

Modelled from the spec: `get_session` (from `models/db`, whose source is not
in the repository snapshot) yields a database session; the spec treats
persistence as "a relational store reached through simple get/save/delete
calls", so each `get_session` block is modelled as its own transaction whose
statements take effect when the block completes without error, and whose
pending statements are discarded when an error escapes the block. -/
def AgentSkillData_clean_data (aid : String) (db : DbState) : DbState :=
  { db with agent_skill_data := db.agent_skill_data.filter (fun r => r.agent_id != aid) }

/-- `ThreadSkillData.clean_data` (skill.py lines 188-198): with a nonempty
thread id delete rows with that `agent_id` and `thread_id`; otherwise delete
every row of that agent.  Session modelled as in
`AgentSkillData_clean_data`. -/
def ThreadSkillData_clean_data (aid tid : String) (db : DbState) : DbState :=
  if tid ≠ "" then
    { db with thread_skill_data :=
        db.thread_skill_data.filter (fun r => !(r.agent_id == aid && r.thread_id == tid)) }
  else
    { db with thread_skill_data := db.thread_skill_data.filter (fun r => r.agent_id != aid) }

inductive PurgeErr
  | invalidRequest
  | dbError
deriving DecidableEq

instance instDecEqExcept {ε α : Type} [DecidableEq ε] [DecidableEq α] :
    DecidableEq (Except ε α) := fun x y =>
  match x, y with
  | .ok a, .ok b => decidable_of_iff (a = b) (by simp)
  | .error a, .error b => decidable_of_iff (a = b) (by simp)
  | .ok _, .error _ => isFalse (fun h => Except.noConfusion h)
  | .error _, .ok _ => isFalse (fun h => Except.noConfusion h)

/-- Outcome of one `clean_agent_memory` call: the committed database state
plus either the success message or the raised error. -/
structure PurgeResult where
  db : DbState
  outcome : Except PurgeErr String
deriving DecidableEq

/-- Python `str.strip()` (engine.py line 455): drop leading and trailing
whitespace.  Implemented over the character list so it evaluates by
`decide`/`rfl`. -/
def pyStrip (s : String) : String :=
  ⟨((s.toList.dropWhile Char.isWhitespace).reverse.dropWhile Char.isWhitespace).reverse⟩

/-- `clean_agent_memory` (engine.py lines 417-489).

The two skill deletions run inside their own `get_session` blocks (see
`AgentSkillData_clean_data`), so their effect is committed independently of
the surrounding session.  The three checkpoint `DELETE` statements run on
the outer session and only take effect at `db.commit()` (line 480).
`fail1 fail2 fail3` inject a `SQLAlchemyError` at the corresponding
checkpoint `DELETE`; an injected failure aborts the call, rolling back the
outer session's pending statements.  The `HTTPException` raised when both
flags are false escapes through the final `except` re-raise with nothing
committed. -/
def clean_agent_memory (agent_id thread_id : String)
    (clean_agent_mem clean_skills_mem : Bool)
    (fail1 fail2 fail3 : Bool) (db : DbState) : PurgeResult :=
  if !clean_skills_mem && !clean_agent_mem then
    ⟨db, .error .invalidRequest⟩
  else
    let db1 := if clean_skills_mem then
        ThreadSkillData_clean_data agent_id thread_id (AgentSkillData_clean_data agent_id db)
      else db
    if clean_agent_mem then
      let t := pyStrip thread_id
      let pat := agent_id ++ "-" ++ (if t ≠ "" then t else "%")
      if fail1 then ⟨db1, .error .dbError⟩
      else
        let p1 := { db1 with checkpoints := db1.checkpoints.filter (fun k => !likeMatch pat k) }
        if fail2 then ⟨db1, .error .dbError⟩
        else
          let p2 := { p1 with checkpoint_writes :=
              p1.checkpoint_writes.filter (fun k => !likeMatch pat k) }
          if fail3 then ⟨db1, .error .dbError⟩
          else
            ⟨{ p2 with checkpoint_blobs :=
                p2.checkpoint_blobs.filter (fun k => !likeMatch pat k) },
             .ok "Agent data cleaned up successfully."⟩
    else ⟨db1, .ok "Agent data cleaned up successfully."⟩

/-! ## Agent configuration and runtime data (`models/agent.py` via `engine.py`) -/

/-- The fields of `Agent` read by `engine.py`.  `updated_at` timestamps are
modelled as naturals; the float model parameters (temperature, penalties)
are passed through to the LLM constructor unexamined and omitted;
`skill_sets` is a dict of set name to options, kept in iteration order. -/
structure Agent where
  name : Option String
  model : String
  prompt : Option String
  prompt_append : Option String
  updated_at : Nat
  cdp_enabled : Bool
  cdp_wallet_data : Option String
  cdp_skills : List String
  enso_enabled : Bool
  enso_skills : List String
  enso_config : Bool
  twitter_skills : List String
  crestal_skills : List String
  common_skills : List String
  skill_sets : List (String × List String)
deriving DecidableEq

/-- The fields of `AgentData` read by `engine.py`. -/
structure AgentData where
  cdp_wallet_data : Option String
  twitter_id : Option String
  twitter_username : Option String
  twitter_name : Option String
deriving DecidableEq

/-- The global `config` fields `engine.py` reads that matter to the claims
(`system_prompt`; the API keys and endpoints are represented symbolically in
`Llm`). -/
structure Config where
  system_prompt : Option String
deriving DecidableEq

/-! ## System prompt (`agent_prompt`, engine.py lines 57-89) -/

/-- Default instructional prompt used when the agent has no custom prompt
but CDP is enabled (engine.py lines 66-76). -/
def cdpDefaultPrompt : String :=
  "You are a helpful agent that can interact onchain using the Coinbase Developer Platform AgentKit. You are empowered to interact onchain using your tools. If you ever need funds, you can request them from the faucet if you are on network ID \x27base-mainnet\x27. If not, you can provide your wallet details and request funds from the user. Before executing your first action, get the wallet details to see what network you\x27re on. If there is a 5XX (internal) HTTP error code, ask the user to try again later. If someone asks you to do something you can\x27t do with your currently available tools, you must say so, and encourage them to implement it themselves using the CDP SDK + Agentkit, recommend they go to docs.cdp.coinbase.com for more information. Be concise and helpful with your responses. Refrain from restating your tools\x27 descriptions unless it is explicitly requested."

/-- Wallet-address guidance appended whenever CDP is enabled
(engine.py lines 77-80). -/
def cdpWalletPrompt : String :=
  "\n\nWallet addresses are public information.  If someone asks for your default wallet, \n            current wallet, personal wallet, crypto wallet, or wallet public address, don\x27t use any address in message history,\n            you must use the \"get_wallet_details\" tool to retrieve your wallet address every time.\n\n"

/-- Enso guidance appended whenever `enso_enabled` (engine.py lines 81-88). -/
def ensoPrompt : String :=
  "\n\nYou are integrated with the Enso API. You can use enso_get_tokens to retrieve token information,\n        including APY, Protocol Slug, Symbol, Address, Decimals, and underlying tokens. When interacting with token amounts,\n        ensure to multiply input amounts by the token\x27s decimal places and divide output amounts by the token\x27s decimals. \n        Utilize enso_route_shortcut to find the best swap or deposit route. Set broadcast_request to True only when the \n        user explicitly requests a transaction broadcast. Insufficient funds or insufficient spending approval can cause \n        Route Shortcut broadcasts to fail. To avoid this, use the enso_broadcast_wallet_approve tool that requires explicit \n        user confirmation before broadcasting any approval transactions for security reasons.\n\n"

/-- `agent_prompt` (engine.py lines 57-89). -/
def agent_prompt (cfg : Config) (a : Agent) : String :=
  let p0 := if strTruthy cfg.system_prompt then cfg.system_prompt.getD "" ++ "\n\n" else ""
  let p1 := p0 ++ (if strTruthy a.name then "Your name is " ++ a.name.getD "" ++ ".\n\n" else "")
  let p2 := p1 ++ (if strTruthy a.prompt then a.prompt.getD ""
                   else if a.cdp_enabled then cdpDefaultPrompt else "")
  let p3 := p2 ++ (if a.cdp_enabled then cdpWalletPrompt else "")
  p3 ++ (if a.enso_enabled then ensoPrompt else "")

/-- Curly-brace escaping applied to free-text prompt fields
(engine.py lines 254 and 268). -/
def escapeBraces (s : String) : String :=
  (s.replace "\x7b" "\x7b\x7b").replace "\x7d" "\x7d\x7d"

/-! ## Model binding (engine.py lines 132-154) -/

/-- Which credential the `ChatOpenAI` binding was given. -/
inductive ApiCredential
  | deepseek
  | openai
deriving DecidableEq

/-- The observable part of the LLM binding: model name, credential, and
endpoint override (`openai_api_base`; `none` means the default endpoint). -/
structure Llm where
  model_name : String
  api_key : ApiCredential
  api_base : Option String
deriving DecidableEq

/-- LLM selection (engine.py lines 132-154): a `deepseek`-prefixed selector
routes to the deepseek endpoint and credential and lowers the input-token
budget from 120000 to 60000. -/
def init_llm (a : Agent) : Llm × Nat :=
  if strIsPref "deepseek" a.model then
    (⟨a.model, .deepseek, some "https://api.deepseek.com"⟩, 60000)
  else
    (⟨a.model, .openai, none⟩, 120000)

/-! ## Tool loading (engine.py lines 159-245) -/

/-- A resolved tool: its registered name plus an identifier standing for the
callable, so that two distinct tools may share a name. -/
structure Tool where
  name : String
  tid : Nat
deriving DecidableEq

/-- The external collaborators of the build, as failable resolvers:
`cdp_toolkit` stands for `CdpAgentkitWrapper` + `CdpToolkit` construction
given the wallet data it was seeded with, `fresh_wallet` for the wallet the
wrapper generates when seeded with none, and the rest for
`get_enso_skill`, `get_twitter_skill`, `get_crestal_skill`,
`get_common_skill`, `get_skill_set`.  An `.error` models the call raising. -/
structure Resolvers where
  cdp_toolkit : String → Except String (List Tool)
  fresh_wallet : String
  enso : String → Except String Tool
  twitter : String → Except String Tool
  crestal : String → Except String Tool
  common : String → Except String Tool
  skill_set : String → List String → Except String (List Tool)

/-- The truthy wallet field of the runtime data, if any
(the `agent_data and agent_data.cdp_wallet_data` test). -/
def dataWallet (ad : Option AgentData) : Option String :=
  match ad with
  | some d => if strTruthy d.cdp_wallet_data then d.cdp_wallet_data else none
  | none => none

/-- The CDP block (engine.py lines 162-189).  Returns the CDP tools (after
the `cdp_skills` filter), the wallet-data write performed via
`agent_store.set_data` (`some w` when line 177's condition fired, `none`
otherwise), and the wallet the agentkit holds.  Wrapper failure aborts the
block before any write, and is not caught by `initialize_agent`. -/
def cdp_block (a : Agent) (ad : Option AgentData) (rs : Resolvers) :
    Except String (List Tool × Option String × String) :=
  if a.cdp_enabled then
    let dw := dataWallet ad
    let loaded := if dw.isSome then dw
                  else if strTruthy a.cdp_wallet_data then a.cdp_wallet_data else none
    let wallet := loaded.getD rs.fresh_wallet
    match rs.cdp_toolkit wallet with
    | .error e => .error e
    | .ok cdp_tools =>
      let filtered := if a.cdp_skills ≠ [] then
          cdp_tools.filter (fun t => a.cdp_skills.contains t.name)
        else cdp_tools
      .ok (filtered, (if dw.isNone then some wallet else none), wallet)
  else .ok ([], none, rs.fresh_wallet)

/-- The Enso block (engine.py lines 191-207): each skill is resolved inside
`try`/`except`, so a failing skill is logged and skipped. -/
def enso_tools (a : Agent) (rs : Resolvers) : List Tool :=
  if a.enso_skills ≠ [] ∧ a.enso_config then
    a.enso_skills.foldl (fun acc s =>
      match rs.enso s with
      | .ok t => acc ++ [t]
      | .error _ => acc) []
  else []

/-- The Twitter block (engine.py lines 210-222): resolution is not wrapped
in `try`, so a failure propagates. -/
def twitter_tools (a : Agent) (rs : Resolvers) : Except String (List Tool) :=
  if a.twitter_skills ≠ [] then a.twitter_skills.mapM rs.twitter else .ok []

/-- The twitter prompt fragment (engine.py lines 223-227), rendered only
when twitter skills are enabled.  Python renders a missing field as the
string `None`; with no runtime data at all the source would raise, which no
modelled scenario reaches. -/
def twitter_prompt_text (a : Agent) (ad : Option AgentData) : String :=
  if a.twitter_skills ≠ [] then
    match ad with
    | some d =>
      "\n\nYour twitter id is " ++ d.twitter_id.getD "None" ++
      ", never reply or retweet yourself. Your twitter username is " ++
      d.twitter_username.getD "None" ++ ". \nYour twitter name is " ++
      d.twitter_name.getD "None" ++ ". \n"
    | none => ""
  else ""

/-- Crestal skills (engine.py lines 230-232), failures propagate. -/
def crestal_tools (a : Agent) (rs : Resolvers) : Except String (List Tool) :=
  a.crestal_skills.mapM rs.crestal

/-- Common skills (engine.py lines 235-237), failures propagate. -/
def common_tools (a : Agent) (rs : Resolvers) : Except String (List Tool) :=
  a.common_skills.mapM rs.common

/-- Skill sets (engine.py lines 240-242), failures propagate. -/
def skill_set_tools (a : Agent) (rs : Resolvers) : Except String (List Tool) := do
  let ls ← a.skill_sets.mapM (fun p => rs.skill_set p.1 p.2)
  pure ls.flatten

/-- The whole skill-loading section (engine.py lines 159-242), in source
order.  The first component is the wallet-data write performed by the CDP
block: it has already happened even if a later category aborts the build. -/
def load_tools (a : Agent) (ad : Option AgentData) (rs : Resolvers) :
    Option String × Except String (List Tool) :=
  match cdp_block a ad rs with
  | .error e => (none, .error e)
  | .ok (cdpTs, write, _) =>
    (write,
      match twitter_tools a rs with
      | .error e => .error e
      | .ok twTs =>
        match crestal_tools a rs with
        | .error e => .error e
        | .ok crTs =>
          match common_tools a rs with
          | .error e => .error e
          | .ok coTs =>
            match skill_set_tools a rs with
            | .error e => .error e
            | .ok ssTs => .ok (cdpTs ++ enso_tools a rs ++ twTs ++ crTs ++ coTs ++ ssTs))

/-! ## Tool deduplication (engine.py lines 244-245):
`tools = list({tool.name: tool for tool in tools}.values())` -/

/-- One step of the Python dict comprehension: assigning key `k` keeps the
insertion position of an existing key and overwrites its value, otherwise
appends the new pair. -/
def dict_insert (m : List (String × Tool)) (k : String) (v : Tool) :
    List (String × Tool) :=
  if m.any (fun p => p.1 == k) then
    m.map (fun p => if p.1 = k then (k, v) else p)
  else m ++ [(k, v)]

/-- The dict `\x7btool.name: tool for tool in tools\x7d`. -/
def tool_dict (ts : List Tool) : List (String × Tool) :=
  ts.foldl (fun m t => dict_insert m t.name t) []

/-- `list({tool.name: tool for tool in tools}.values())`. -/
def dedup_tools (ts : List Tool) : List Tool :=
  (tool_dict ts).map Prod.snd

/-! ## Prompt template assembly (engine.py lines 251-273) -/

/-- The `prompt_array` handed to `ChatPromptTemplate.from_messages`.
For a deepseek model the twitter fragment is dropped (only a leading system
message is supported) and `prompt_append` is prepended instead of
appended. -/
def prompt_array (cfg : Config) (a : Agent) (ad : Option AgentData) :
    List (String × String) :=
  let escaped := escapeBraces (agent_prompt cfg a)
  let base := [("system", escaped), ("placeholder", "\x7bmessages\x7d")]
  let tw := twitter_prompt_text a ad
  let arr1 := if tw ≠ "" then
      (if strIsPref "deepseek" a.model then base else base ++ [("system", tw)])
    else base
  if strTruthy a.prompt_append then
    let ea := escapeBraces (a.prompt_append.getD "")
    if strIsPref "deepseek" a.model then ("system", ea) :: arr1
    else arr1 ++ [("system", ea)]
  else arr1

/-! ## The runtime cache and `initialize_agent` (engine.py lines 50-54, 92-292) -/

/-- The product installed into the `agents` cache: the compiled graph is
identified by the build artifacts plus a build serial number, so that two
builds are distinguishable objects. -/
structure CompiledPipeline where
  llm : Llm
  input_token_limit : Nat
  tools : List Tool
  prompts : List (String × String)
  serial : Nat
deriving DecidableEq

inductive Err
  | notFound
  | buildError (msg : String)
deriving DecidableEq

/-- The process state: the config store (read-only here), the runtime-data
store written by `agent_store.set_data`, the two global caches `agents` and
`agents_updated`, and a counter of completed builds whose value serialises
freshly built pipelines. -/
structure World where
  config : String → Option Agent
  agent_data : String → Option AgentData
  agents : String → Option CompiledPipeline
  agents_updated : String → Option Nat
  build_serial : Nat

/-- `agent_store.set_data({"cdp_wallet_data": ...})`: merge the wallet field
into the runtime data, creating the record when absent. -/
def set_wallet (ad : Option AgentData) (wd : String) : AgentData :=
  match ad with
  | some d => { d with cdp_wallet_data := some wd }
  | none => ⟨some wd, none, none, none⟩

/-- The pipeline assembled at the end of a successful build
(engine.py lines 244-292): deduplicated tools, forced empty for deepseek
(line 279-281), the prompt array, and the LLM binding. -/
def built_pipeline (cfg : Config) (a : Agent) (ad : Option AgentData)
    (ts : List Tool) (serial : Nat) : CompiledPipeline :=
  ⟨(init_llm a).1, (init_llm a).2,
   (if strIsPref "deepseek" a.model then [] else dedup_tools ts),
   prompt_array cfg a ad, serial⟩

/-- `initialize_agent` (engine.py lines 92-292).  Returns the new world and
either the installed pipeline or the raised error.  Effects happen in
source order: `agents_updated[aid]` is set as soon as the config is fetched
(line 123), the CDP wallet write happens inside tool loading, and the cache
slot `agents[aid]` is replaced only at the very end (line 284); a failure
in a non-optional capability leaves the earlier effects in place. -/
def initialize_agent (cfg : Config) (rs : Resolvers) (w : World) (aid : String) :
    World × Except Err CompiledPipeline :=
  match w.config aid with
  | none => (w, .error .notFound)
  | some a =>
    let ad := w.agent_data aid
    let w1 := { w with agents_updated := fun x => if x = aid then some a.updated_at else w.agents_updated x }
    match load_tools a ad rs with
    | (write, toolsRes) =>
      let w2 := match write with
        | some wd => { w1 with agent_data := fun x => if x = aid then some (set_wallet ad wd) else w1.agent_data x }
        | none => w1
      match toolsRes with
      | .error e => (w2, .error (.buildError e))
      | .ok ts =>
        let pipe := built_pipeline cfg a ad ts w.build_serial
        ({ w2 with agents := fun x => if x = aid then some pipe else w2.agents x,
                   build_serial := w.build_serial + 1 }, .ok pipe)

/-! ## Execution (`execute_agent`, engine.py lines 295-414) -/

/-- The inbound message: text plus ordered image URLs. -/
structure AgentMessageInput where
  text : String
  images : List String
deriving DecidableEq

/-- One event of the stream returned by `executor.astream`: a model turn or
a tool turn, with the textual content of its first message. -/
inductive Chunk
  | agent (content : String)
  | tool (content : String)
deriving DecidableEq

/-- One `resp_debug` line.  Each constructor corresponds to one `append` in
the source; the `...Cost` and `totalTime` constructors stand for the timing
lines, whose wall-clock payload is abstracted away. -/
inductive Seg
  | thread (t : String)
  | inputMsg (text : String) (images : List String)
  | coldStart
  | reinitialized
  | startCost
  | agentLabel
  | agentText (s : String)
  | agentThinking
  | agentCost
  | skillLabel
  | skillText (s : String)
  | skillCost
  | totalTime
  | debugBlock (s : String)
deriving DecidableEq

/-- The `resp_debug` lines one chunk contributes
(engine.py lines 385-406). -/
def chunk_segs : Chunk → List Seg
  | .agent v => if v ≠ "" then [.agentLabel, .agentText v, .agentCost]
                else [.agentThinking, .agentCost]
  | .tool v => [.skillLabel, .skillText v, .skillCost]

/-- All `resp_debug` lines produced by the stream loop, in arrival order. -/
def stream_segs (chunks : List Chunk) : List Seg :=
  (chunks.map chunk_segs).flatten

/-- The `resp` lines (normal-mode answer): only nonempty model-turn text. -/
def stream_resp (chunks : List Chunk) : List String :=
  chunks.filterMap (fun c => match c with
    | .agent v => if v ≠ "" then some v else none
    | .tool _ => none)

/-- The debug snapshot block (engine.py lines 369-383): the rendered system
prompt, the thread's message history fetched via `aget_state` (a list of
role/content pairs; fetching may raise), and `prompt_append`.  A raise
inside the `try` degrades the block to the empty string. -/
def render_debug_block (cfg : Config) (a : Agent)
    (snapshot : Except String (List (String × String))) : String :=
  match snapshot with
  | .ok msgs =>
    let s0 := "\n===================\n\n[ system ]\n" ++ agent_prompt cfg a
    let s1 := msgs.foldl (fun acc m => acc ++ "[ " ++ m.1 ++ " ]\n" ++ m.2 ++ "\n\n") s0
    if strTruthy a.prompt_append then s1 ++ "[ system ]\n" ++ a.prompt_append.getD ""
    else s1
  | .error _ => ""

/-- What one `execute_agent` call returns: the full debug trace or the
normal-mode answer lines. -/
inductive ExecResult
  | debugOut (segs : List Seg)
  | normalOut (lines : List String)
deriving DecidableEq

/-- The response assembled once the executor streamed its chunks
(engine.py lines 323-343 and 385-414): the prefix lines (thread id, input,
and the cold-start or reinitialisation lines when a build happened), the
stream lines, the total-time line, and in debug mode the final snapshot
block. -/
def run_result (cfg : Config) (a : Agent) (thread_id : String)
    (message : AgentMessageInput) (debug : Bool) (rebuildSegs : List Seg)
    (chunks : List Chunk) (snapshot : Except String (List (String × String))) :
    ExecResult :=
  let pre : List Seg :=
    [.thread thread_id, .inputMsg message.text message.images] ++ rebuildSegs
  let segs := pre ++ stream_segs chunks ++ [Seg.totalTime]
  if debug then
    .debugOut (segs ++ [Seg.debugBlock (render_debug_block cfg a snapshot)])
  else .normalOut (stream_resp chunks)

/-- `execute_agent` (engine.py lines 295-414).  `chunks` is the event
stream the compiled graph yields for this call and `snapshot` the outcome
of the debug-state fetch; both are opaque external behaviour.  Returns the
new world and, on success, the executor that ran (the cache slot read at
line 358) together with the response. -/
def execute_agent (cfg : Config) (rs : Resolvers) (w : World)
    (aid thread_id : String) (message : AgentMessageInput) (debug : Bool)
    (chunks : List Chunk) (snapshot : Except String (List (String × String))) :
    World × Except Err (CompiledPipeline × ExecResult) :=
  match w.config aid with
  | none => (w, .error .notFound)
  | some a =>
    let inCache := (w.agents aid).isSome
    let needsReinit := inCache && (w.agents_updated aid != some a.updated_at)
    let rebuild := !inCache || needsReinit
    let rebuildSegs : List Seg :=
      if rebuild then
        [(if inCache then Seg.reinitialized else Seg.coldStart), Seg.startCost]
      else []
    let step := if rebuild then initialize_agent cfg rs w aid
                else (w, match w.agents aid with
                         | some p => .ok p
                         | none => .error (.buildError "unreachable"))
    match step with
    | (w', pipeRes) =>
      match pipeRes with
      | .error e => (w', .error e)
      | .ok executor =>
        (w', .ok (executor,
                  run_result cfg a thread_id message debug rebuildSegs chunks snapshot))

/-! ## Helper lemmas about the purge -/

theorem ASD_clean_thread (aid : String) (db : DbState) :
    (AgentSkillData_clean_data aid db).thread_skill_data = db.thread_skill_data := rfl

theorem ASD_clean_checkpoints (aid : String) (db : DbState) :
    (AgentSkillData_clean_data aid db).checkpoints = db.checkpoints := rfl

theorem TSD_clean_checkpoints (aid tid : String) (db : DbState) :
    (ThreadSkillData_clean_data aid tid db).checkpoints = db.checkpoints := by
  unfold ThreadSkillData_clean_data; split <;> rfl

theorem TSD_clean_writes (aid tid : String) (db : DbState) :
    (ThreadSkillData_clean_data aid tid db).checkpoint_writes = db.checkpoint_writes := by
  unfold ThreadSkillData_clean_data; split <;> rfl

theorem TSD_clean_blobs (aid tid : String) (db : DbState) :
    (ThreadSkillData_clean_data aid tid db).checkpoint_blobs = db.checkpoint_blobs := by
  unfold ThreadSkillData_clean_data; split <;> rfl

theorem TSD_clean_agent_skill (aid tid : String) (db : DbState) :
    (ThreadSkillData_clean_data aid tid db).agent_skill_data = db.agent_skill_data := by
  unfold ThreadSkillData_clean_data; split <;> rfl

/-- The checkpoint-table component of the state after the (modelled,
independently committed) skill-data sessions. -/
theorem skills_step_checkpoints (aid tid : String) (cs : Bool) (db : DbState) :
    (if cs then ThreadSkillData_clean_data aid tid (AgentSkillData_clean_data aid db)
     else db).checkpoints = db.checkpoints := by
  cases cs <;> simp [TSD_clean_checkpoints, ASD_clean_checkpoints]

theorem likeMatch_exact (pat : String) (hp : noWild pat) (k : String) :
    likeMatch pat k = (pat == k) := by
  unfold likeMatch
  rw [likeMatchL_plain pat.toList hp.1 hp.2 k.toList]
  by_cases h : pat = k
  · subst h; simp
  · have hd : ¬ pat.toList = k.toList := fun hc => h (String.ext hc)
    rw [decide_eq_false hd, beq_eq_false_iff_ne.mpr h]

theorem noWild_append (a b : String) (ha : noWild a) (hb : noWild b) :
    noWild (a ++ b) := by
  constructor <;> · rw [String.toList, String.data_append]
                    simp only [List.mem_append]
                    rintro (h | h)
                    · first
                      | exact ha.1 h
                      | exact ha.2 h
                    · first
                      | exact hb.1 h
                      | exact hb.2 h

theorem likeMatch_pref_pat (a : String) (ha : noWild a) (k : String) :
    likeMatch (a ++ "%") k = strIsPref a k := by
  unfold likeMatch strIsPref
  have h1 : (a ++ "%").toList = a.toList ++ ['%'] := by
    rw [String.toList, String.data_append]; rfl
  rw [h1]
  exact likeMatchL_pref a.toList ha.1 ha.2 k.toList

/-! ## C10 -/

/-- C10: the async path of the Enso token tool ignores every caller-supplied
filter parameter — `_arun` delegates to `_run()` with no arguments, so the
API request carries only the default parameters
`page=1, includeMetadata=true`. -/
theorem C10_enso_arun_ignores_filters (k : Enso.Kwargs) :
    Enso.arunParams k = Enso.runParams ⟨none, none, none, none⟩ ∧
    Enso.arunParams k = [("page", "1"), ("includeMetadata", "true")] :=
  ⟨rfl, rfl⟩

/-- Witness for `C10_enso_arun_ignores_filters`: with every filter supplied,
the async path still sends only the defaults, although the synchronous path
given the same filters would send more. -/
theorem C10_enso_arun_ignores_filters_witness :
    Enso.arunParams ⟨some 5, some "aave-v2", some "defi", some (.str "0xdead")⟩ =
      [("page", "1"), ("includeMetadata", "true")] ∧
    Enso.runParams ⟨some 5, some "aave-v2", some "defi", some (.str "0xdead")⟩ ≠
      Enso.arunParams ⟨some 5, some "aave-v2", some "defi", some (.str "0xdead")⟩ :=
  ⟨(C10_enso_arun_ignores_filters
      ⟨some 5, some "aave-v2", some "defi", some (.str "0xdead")⟩).2,
   by decide⟩

/-! ## C3: deletions of one purge call are not one atomic unit -/

/-- Seed state for the C3 counterexample: one agent-skill row and one
checkpoint row for agent `A`. -/
def c3db : DbState := ⟨[⟨"A", "s", "k"⟩], [], ["A-t"], [], []⟩

/-- C3 counterexample: a purge call with both flags set whose first
checkpoint `DELETE` fails commits the skill-data deletion anyway — the
agent-skill row is gone while the checkpoint row survives, so a partial
deletion was committed and the persisted state did not stay unchanged. -/
theorem C3_counterexample :
    (clean_agent_memory "A" "" true true true false false c3db).db.agent_skill_data = [] ∧
    (clean_agent_memory "A" "" true true true false false c3db).db.checkpoints = ["A-t"] ∧
    (clean_agent_memory "A" "" true true true false false c3db).outcome =
      .error .dbError := by
  refine ⟨?_, ?_, ?_⟩ <;> rfl

/-- C3 (amended): only the three checkpoint-table deletions form one atomic
unit — if any of the three checkpoint `DELETE` statements fails, none of the
checkpoint tables changes and the call errors, but the skill-data deletions
(when requested) have already been committed by their own sessions. -/
theorem C3_checkpoint_unit_atomic (A T : String) (cs f1 f2 f3 : Bool) (db : DbState)
    (hf : f1 = true ∨ f2 = true ∨ f3 = true) :
    (clean_agent_memory A T true cs f1 f2 f3 db).outcome = .error .dbError ∧
    (clean_agent_memory A T true cs f1 f2 f3 db).db.checkpoints = db.checkpoints ∧
    (clean_agent_memory A T true cs f1 f2 f3 db).db.checkpoint_writes = db.checkpoint_writes ∧
    (clean_agent_memory A T true cs f1 f2 f3 db).db.checkpoint_blobs = db.checkpoint_blobs ∧
    (cs = true →
      (clean_agent_memory A T true cs f1 f2 f3 db).db.agent_skill_data =
        db.agent_skill_data.filter (fun row => row.agent_id != A)) := by
  cases f1 <;> cases f2 <;> cases f3 <;>
    first
      | (exfalso; rcases hf with h | h | h <;> exact Bool.false_ne_true h)
      | (cases cs <;>
          refine ⟨rfl, ?_, ?_, ?_, ?_⟩ <;>
          simp [clean_agent_memory, TSD_clean_checkpoints, ASD_clean_checkpoints,
                TSD_clean_writes, TSD_clean_blobs, TSD_clean_agent_skill,
                AgentSkillData_clean_data])

/-- Witness for `C3_checkpoint_unit_atomic` at a concrete input. -/
theorem C3_checkpoint_unit_atomic_witness :
    ((false : Bool) = true ∨ (true : Bool) = true ∨ (false : Bool) = true) ∧
    ((clean_agent_memory "A" "" true true false true false c3db).outcome = .error .dbError ∧
     (clean_agent_memory "A" "" true true false true false c3db).db.checkpoints = c3db.checkpoints ∧
     (clean_agent_memory "A" "" true true false true false c3db).db.checkpoint_writes = c3db.checkpoint_writes ∧
     (clean_agent_memory "A" "" true true false true false c3db).db.checkpoint_blobs = c3db.checkpoint_blobs ∧
     ((true : Bool) = true →
       (clean_agent_memory "A" "" true true false true false c3db).db.agent_skill_data =
         c3db.agent_skill_data.filter (fun row => row.agent_id != "A"))) :=
  ⟨Or.inr (Or.inl rfl),
   C3_checkpoint_unit_atomic "A" "" true false true false c3db (Or.inr (Or.inl rfl))⟩

/-! ## C4: purge scoping uses SQL LIKE, exact only without wildcards -/

/-- Seed state for the C4 counterexample: one checkpoint row `A-TX`. -/
def c4db : DbState := ⟨[], [], ["A-TX"], [], []⟩

/-- C4 counterexample: purging agent `A` with thread id `T_` deletes the
checkpoint row keyed `A-TX`, whose key is not `A-T_` — the deletion pattern
is a SQL LIKE pattern, not an exact key match, so the call removes more than
"exactly the rows whose thread key matches" identity-threadId. -/
theorem C4_counterexample :
    (clean_agent_memory "A" "T_" true false false false false c4db).db.checkpoints = [] ∧
    ("A-TX" : String) ≠ "A-T_" ∧
    (clean_agent_memory "A" "T_" true false false false false c4db).outcome =
      .ok "Agent data cleaned up successfully." := by
  refine ⟨?_, by decide, ?_⟩ <;> rfl

/-- C4 (amended): provided the identity and thread id contain no SQL LIKE
wildcard characters (`%`, `_`) and the thread id carries no surrounding
whitespace, a purge with the conversation flag set and a nonempty thread id
`T` deletes from the three checkpoint tables exactly the rows keyed
`A-T`, and thread-scoped skill rows only for thread `T` of agent `A`
(and only when the skill flag is set); with an empty thread id the pattern
is the prefix `A-` over all three checkpoint tables. -/
theorem C4_purge_scoping (A T : String) (cs : Bool) (db : DbState)
    (hA : noWild A) (hT : noWild T) (htrim : pyStrip T = T) (hTne : T ≠ "") :
    ((clean_agent_memory A T true cs false false false db).db.checkpoints =
        db.checkpoints.filter (fun k => !(A ++ "-" ++ T == k)) ∧
     (clean_agent_memory A T true cs false false false db).db.checkpoint_writes =
        db.checkpoint_writes.filter (fun k => !(A ++ "-" ++ T == k)) ∧
     (clean_agent_memory A T true cs false false false db).db.checkpoint_blobs =
        db.checkpoint_blobs.filter (fun k => !(A ++ "-" ++ T == k)) ∧
     (clean_agent_memory A T true cs false false false db).db.thread_skill_data =
        (if cs then
          db.thread_skill_data.filter (fun r => !(r.agent_id == A && r.thread_id == T))
         else db.thread_skill_data)) ∧
    ((clean_agent_memory A "" true cs false false false db).db.checkpoints =
        db.checkpoints.filter (fun k => !strIsPref (A ++ "-") k) ∧
     (clean_agent_memory A "" true cs false false false db).db.checkpoint_writes =
        db.checkpoint_writes.filter (fun k => !strIsPref (A ++ "-") k) ∧
     (clean_agent_memory A "" true cs false false false db).db.checkpoint_blobs =
        db.checkpoint_blobs.filter (fun k => !strIsPref (A ++ "-") k)) := by
  have hpat : noWild (A ++ "-" ++ T) :=
    noWild_append _ _ (noWild_append _ _ hA (by decide)) hT
  have hexact : (fun k => !likeMatch (A ++ "-" ++ T) k) =
      (fun k => !(A ++ "-" ++ T == k)) := by
    funext k; rw [likeMatch_exact _ hpat]
  have hpref : (fun k => !likeMatch (A ++ "-" ++ "%") k) =
      (fun k => !strIsPref (A ++ "-") k) := by
    funext k
    rw [likeMatch_pref_pat (A ++ "-") (noWild_append _ _ hA (by decide))]
  have h0 : pyStrip "" = "" := rfl
  constructor
  · cases cs <;>
      simp [clean_agent_memory, htrim, hTne, hexact,
            AgentSkillData_clean_data, ThreadSkillData_clean_data, hTne]
  · cases cs <;>
      simp [clean_agent_memory, h0, hpref,
            AgentSkillData_clean_data, ThreadSkillData_clean_data]

/-- Seed state for the C4 witness: checkpoints for `A-T`, another thread of
`A`, and agent `B`; thread-skill rows for the matching scenarios. -/
def c4wdb : DbState :=
  ⟨[], [⟨"T", "A", "s", "k"⟩, ⟨"T2", "A", "s", "k"⟩, ⟨"T", "B", "s", "k"⟩],
   ["A-T", "A-T2", "B-T"], ["A-T"], ["A-T2"]⟩

/-- Witness for `C4_purge_scoping` at a concrete input. -/
theorem C4_purge_scoping_witness :
    (noWild "A" ∧ noWild "T" ∧ pyStrip "T" = "T" ∧ "T" ≠ "") ∧
    ((clean_agent_memory "A" "T" true true false false false c4wdb).db.checkpoints =
        c4wdb.checkpoints.filter (fun k => !("A" ++ "-" ++ "T" == k)) ∧
     (clean_agent_memory "A" "T" true true false false false c4wdb).db.checkpoint_writes =
        c4wdb.checkpoint_writes.filter (fun k => !("A" ++ "-" ++ "T" == k)) ∧
     (clean_agent_memory "A" "T" true true false false false c4wdb).db.checkpoint_blobs =
        c4wdb.checkpoint_blobs.filter (fun k => !("A" ++ "-" ++ "T" == k)) ∧
     (clean_agent_memory "A" "T" true true false false false c4wdb).db.thread_skill_data =
        (if true then
          c4wdb.thread_skill_data.filter (fun r => !(r.agent_id == "A" && r.thread_id == "T"))
         else c4wdb.thread_skill_data)) ∧
    ((clean_agent_memory "A" "" true true false false false c4wdb).db.checkpoints =
        c4wdb.checkpoints.filter (fun k => !strIsPref ("A" ++ "-") k) ∧
     (clean_agent_memory "A" "" true true false false false c4wdb).db.checkpoint_writes =
        c4wdb.checkpoint_writes.filter (fun k => !strIsPref ("A" ++ "-") k) ∧
     (clean_agent_memory "A" "" true true false false false c4wdb).db.checkpoint_blobs =
        c4wdb.checkpoint_blobs.filter (fun k => !strIsPref ("A" ++ "-") k)) :=
  ⟨⟨by decide, by decide, by decide, by decide⟩,
   C4_purge_scoping "A" "T" true c4wdb (by decide) (by decide) (by decide) (by decide)⟩

/-! ## C5: deduplication keeps one tool per name, the last occurrence -/

/-- Keys of the modelled dict, in insertion order. -/
def dkeys (m : List (String × Tool)) : List String := m.map Prod.fst

/-- First-match association lookup (Python dict indexing; keys are unique
by construction). -/
def alookup (k : String) : List (String × Tool) → Option Tool
  | [] => none
  | p :: m => if p.1 = k then some p.2 else alookup k m

theorem dict_any_iff (m : List (String × Tool)) (k : String) :
    (m.any (fun p => p.1 == k)) = true ↔ k ∈ dkeys m := by
  rw [List.any_eq_true]
  constructor
  · rintro ⟨p, hp, hb⟩
    exact List.mem_map.mpr ⟨p, hp, beq_iff_eq.mp hb⟩
  · intro h
    rcases List.mem_map.mp h with ⟨p, hp, hf⟩
    exact ⟨p, hp, beq_iff_eq.mpr hf⟩

theorem alookup_append (k : String) (m₁ m₂ : List (String × Tool)) :
    alookup k (m₁ ++ m₂) =
      (match alookup k m₁ with
       | some v => some v
       | none => alookup k m₂) := by
  induction m₁ with
  | nil => rfl
  | cons p m ih =>
    by_cases h : p.1 = k <;> simp [alookup, h, ih]

theorem alookup_eq_none_iff (k : String) (m : List (String × Tool)) :
    alookup k m = none ↔ k ∉ dkeys m := by
  induction m with
  | nil => simp [alookup, dkeys]
  | cons p m ih =>
    by_cases h : p.1 = k
    · constructor
      · intro hc; rw [alookup, if_pos h] at hc; cases hc
      · intro hc; exact absurd (List.mem_map.mpr ⟨p, List.mem_cons_self p m, h⟩) hc
    · rw [alookup, if_neg h, ih]
      constructor
      · intro hc hk
        rcases List.mem_map.mp hk with ⟨q, hq, hf⟩
        rcases List.mem_cons.mp hq with hq | hq
        · exact h (hq ▸ hf)
        · exact hc (List.mem_map.mpr ⟨q, hq, hf⟩)
      · intro hc hk
        rcases List.mem_map.mp hk with ⟨q, hq, hf⟩
        exact hc (List.mem_map.mpr ⟨q, List.mem_cons_of_mem p hq, hf⟩)

theorem alookup_map_overwrite (k k' : String) (v : Tool) (m : List (String × Tool)) :
    alookup k (m.map (fun p => if p.1 = k' then (k', v) else p)) =
      (if k' = k then (if k ∈ dkeys m then some v else none) else alookup k m) := by
  induction m with
  | nil => by_cases h : k' = k <;> simp [alookup, dkeys, h]
  | cons p m ih =>
    simp only [List.map_cons]
    by_cases hp : p.1 = k'
    · by_cases hk : k' = k
      · have hmem : k ∈ dkeys (p :: m) :=
          List.mem_map.mpr ⟨p, List.mem_cons_self p m, hp.trans hk⟩
        simp [alookup, hp, hk, hmem]
      · have hpk : ¬ p.1 = k := fun hc => hk (hp.symm.trans hc)
        simp [alookup, hp, hk, hpk, ih]
    · by_cases hpk : p.1 = k
      · have hk : ¬ k' = k := fun hc => hp (hpk.trans hc.symm)
        have hk2 : ¬ k = k' := fun hc => hk hc.symm
        simp [alookup, hp, hk, hk2, hpk]
      · by_cases hk : k' = k
        · rw [hk] at ih
          by_cases hm : k ∈ dkeys m
          · have hmem : k ∈ dkeys (p :: m) := by
              rcases List.mem_map.mp hm with ⟨q, hq, hf⟩
              exact List.mem_map.mpr ⟨q, List.mem_cons_of_mem p hq, hf⟩
            simp [alookup, hp, hk, hpk, hm, hmem, ih]
          · have hnm : k ∉ dkeys (p :: m) := by
              intro hc
              rcases List.mem_map.mp hc with ⟨q, hq, hf⟩
              rcases List.mem_cons.mp hq with hq | hq
              · exact hpk (by rw [hq] at hf; exact hf)
              · exact hm (List.mem_map.mpr ⟨q, hq, hf⟩)
            simp [alookup, hp, hk, hpk, hm, hnm, ih]
        · simp [alookup, hp, hpk, hk, ih]

theorem alookup_dict_insert (k k' : String) (v : Tool) (m : List (String × Tool)) :
    alookup k (dict_insert m k' v) =
      (if k' = k then some v else alookup k m) := by
  unfold dict_insert
  by_cases hmem : k' ∈ dkeys m
  · rw [if_pos ((dict_any_iff m k').mpr hmem), alookup_map_overwrite]
    by_cases hk : k' = k
    · simp [hk, show k ∈ dkeys m from hk ▸ hmem]
    · simp [hk]
  · rw [if_neg (fun h => hmem ((dict_any_iff m k').mp h)), alookup_append]
    by_cases hk : k' = k
    · rw [(alookup_eq_none_iff k m).mpr (hk ▸ hmem)]
      simp [alookup, hk]
    · cases h : alookup k m <;> simp [alookup, hk, h]

theorem dkeys_map_overwrite (k' : String) (v : Tool) (m : List (String × Tool)) :
    dkeys (m.map (fun p => if p.1 = k' then (k', v) else p)) = dkeys m := by
  unfold dkeys
  rw [List.map_map]
  apply List.map_congr_left
  intro p _
  by_cases hp : p.1 = k' <;> simp [hp]

theorem dkeys_dict_insert (k' : String) (v : Tool) (m : List (String × Tool)) :
    dkeys (dict_insert m k' v) =
      (if k' ∈ dkeys m then dkeys m else dkeys m ++ [k']) := by
  unfold dict_insert
  by_cases hmem : k' ∈ dkeys m
  · rw [if_pos ((dict_any_iff m k').mpr hmem), if_pos hmem, dkeys_map_overwrite]
  · rw [if_neg (fun h => hmem ((dict_any_iff m k').mp h)), if_neg hmem]
    simp [dkeys]

theorem nodup_dict_insert (k' : String) (v : Tool) (m : List (String × Tool))
    (h : (dkeys m).Nodup) : (dkeys (dict_insert m k' v)).Nodup := by
  rw [dkeys_dict_insert]
  by_cases hmem : k' ∈ dkeys m
  · simpa [hmem] using h
  · simpa [hmem] using List.Nodup.append h (List.nodup_singleton k')
      (by simpa [List.disjoint_singleton] using hmem)

theorem names_dict_insert (v : Tool) (m : List (String × Tool))
    (h : ∀ p ∈ m, p.1 = p.2.name) :
    ∀ p ∈ dict_insert m v.name v, p.1 = p.2.name := by
  intro p hp
  unfold dict_insert at hp
  by_cases hmem : (m.any (fun q => q.1 == v.name)) = true
  · rw [if_pos hmem] at hp
    rcases List.mem_map.mp hp with ⟨q, hq, hfq⟩
    by_cases hqv : q.1 = v.name
    · rw [if_pos hqv] at hfq
      rw [← hfq]
    · rw [if_neg hqv] at hfq
      rw [← hfq]
      exact h q hq
  · rw [if_neg hmem] at hp
    rcases List.mem_append.mp hp with hp | hp
    · exact h p hp
    · rw [List.mem_singleton.mp hp]

theorem alookup_of_mem_nodup (q : String × Tool) (m : List (String × Tool))
    (hq : q ∈ m) (h : (dkeys m).Nodup) : alookup q.1 m = some q.2 := by
  induction m with
  | nil => cases hq
  | cons p m ih =>
    have hcons : dkeys (p :: m) = p.1 :: dkeys m := rfl
    rw [hcons] at h
    rcases List.mem_cons.mp hq with hq | hq
    · rw [hq]
      simp [alookup]
    · have hne : ¬ p.1 = q.1 := by
        intro hc
        exact (List.nodup_cons.mp h).1 (hc ▸ List.mem_map.mpr ⟨q, hq, rfl⟩)
      rw [alookup, if_neg hne]
      exact ih hq (List.nodup_cons.mp h).2

/-- The last tool of `ts` bearing name `k`, if any. -/
def lastNamed (ts : List Tool) (k : String) : Option Tool :=
  ts.reverse.find? (fun u => u.name == k)

theorem find?_append_eq {α : Type} (p : α → Bool) (l₁ l₂ : List α) :
    (l₁ ++ l₂).find? p =
      (match l₁.find? p with
       | some a => some a
       | none => l₂.find? p) := by
  induction l₁ with
  | nil => rfl
  | cons a l ih =>
    cases h : p a <;> simp [List.find?, h, ih]

theorem lastNamed_cons (t : Tool) (ts : List Tool) (k : String) :
    lastNamed (t :: ts) k =
      (match lastNamed ts k with
       | some u => some u
       | none => if t.name = k then some t else none) := by
  unfold lastNamed
  rw [List.reverse_cons, find?_append_eq]
  cases h : ts.reverse.find? (fun u => u.name == k) with
  | some u => rfl
  | none =>
    by_cases ht : t.name = k
    · simp [List.find?, beq_iff_eq, ht]
    · simp [List.find?, beq_eq_false_iff_ne.mpr ht, ht]

/-- The running fold of the dict comprehension from an arbitrary
accumulator. -/
def td_aux (m : List (String × Tool)) (ts : List Tool) : List (String × Tool) :=
  ts.foldl (fun m t => dict_insert m t.name t) m

theorem td_aux_lookup (ts : List Tool) :
    ∀ (m : List (String × Tool)) (k : String),
      alookup k (td_aux m ts) =
        (match lastNamed ts k with
         | some u => some u
         | none => alookup k m) := by
  induction ts with
  | nil => intro m k; simp [td_aux, lastNamed, List.find?]
  | cons t ts ih =>
    intro m k
    have hstep : td_aux m (t :: ts) = td_aux (dict_insert m t.name t) ts := rfl
    rw [hstep, ih, lastNamed_cons]
    cases h : lastNamed ts k with
    | some u => rfl
    | none =>
      rw [alookup_dict_insert]
      by_cases ht : t.name = k <;> simp [ht]

theorem td_aux_inv (ts : List Tool) :
    ∀ (m : List (String × Tool)),
      (dkeys m).Nodup → (∀ p ∈ m, p.1 = p.2.name) →
      (dkeys (td_aux m ts)).Nodup ∧ (∀ p ∈ td_aux m ts, p.1 = p.2.name) := by
  induction ts with
  | nil => intro m h1 h2; exact ⟨h1, h2⟩
  | cons t ts ih =>
    intro m h1 h2
    exact ih (dict_insert m t.name t) (nodup_dict_insert _ _ _ h1)
      (names_dict_insert _ _ h2)

theorem td_aux_keys (ts : List Tool) :
    ∀ (m : List (String × Tool)) (k : String),
      k ∈ dkeys (td_aux m ts) ↔ k ∈ dkeys m ∨ ∃ t ∈ ts, t.name = k := by
  induction ts with
  | nil => intro m k; simp [td_aux]
  | cons t ts ih =>
    intro m k
    have hstep : td_aux m (t :: ts) = td_aux (dict_insert m t.name t) ts := rfl
    rw [hstep, ih, dkeys_dict_insert]
    by_cases hmem : t.name ∈ dkeys m
    · rw [if_pos hmem]
      constructor
      · rintro (h | ⟨u, hu, hn⟩)
        · exact Or.inl h
        · exact Or.inr ⟨u, List.mem_cons_of_mem t hu, hn⟩
      · rintro (h | ⟨u, hu, hn⟩)
        · exact Or.inl h
        · rcases List.mem_cons.mp hu with hu | hu
          · exact Or.inl (by rw [← hn, hu]; exact hmem)
          · exact Or.inr ⟨u, hu, hn⟩
    · rw [if_neg hmem]
      constructor
      · rintro (h | ⟨u, hu, hn⟩)
        · rcases List.mem_append.mp h with h | h
          · exact Or.inl h
          · exact Or.inr ⟨t, List.mem_cons_self t ts, (List.mem_singleton.mp h).symm⟩
        · exact Or.inr ⟨u, List.mem_cons_of_mem t hu, hn⟩
      · rintro (h | ⟨u, hu, hn⟩)
        · exact Or.inl (List.mem_append.mpr (Or.inl h))
        · rcases List.mem_cons.mp hu with hu | hu
          · exact Or.inl (List.mem_append.mpr (Or.inr
              (List.mem_singleton.mpr (by rw [← hn, hu]))))
          · exact Or.inr ⟨u, hu, hn⟩

/-- C5: the final tool set of a build contains exactly one tool per name
(names pairwise distinct, every accumulated name represented), and the tool
retained for a name is the last-resolved one bearing it. -/
theorem C5_dedup_last_wins (ts : List Tool) :
    ((dedup_tools ts).map Tool.name).Nodup ∧
    (∀ t ∈ dedup_tools ts, lastNamed ts t.name = some t) ∧
    (∀ t ∈ ts, ∃ u ∈ dedup_tools ts, u.name = t.name) := by
  have hinv := td_aux_inv ts [] (by simp [dkeys]) (by simp)
  have hkeys : (dedup_tools ts).map Tool.name = dkeys (tool_dict ts) := by
    unfold dedup_tools dkeys
    rw [List.map_map]
    exact (List.map_congr_left (fun p hp => (hinv.2 p hp).symm))
  refine ⟨?_, ?_, ?_⟩
  · rw [hkeys]; exact hinv.1
  · intro t ht
    rcases List.mem_map.mp ht with ⟨p, hp, hsnd⟩
    have hname : p.1 = t.name := by rw [hinv.2 p hp, hsnd]
    have hlk : alookup t.name (tool_dict ts) = some t := by
      rw [← hname, ← hsnd]
      exact alookup_of_mem_nodup p (tool_dict ts) hp hinv.1
    have := td_aux_lookup ts [] t.name
    rw [show td_aux [] ts = tool_dict ts from rfl] at this
    rw [hlk] at this
    cases h : lastNamed ts t.name with
    | some u => rw [h] at this; exact this ▸ rfl
    | none => rw [h] at this; simp [alookup] at this
  · intro t ht
    have : t.name ∈ dkeys (tool_dict ts) := by
      rw [show tool_dict ts = td_aux [] ts from rfl]
      exact (td_aux_keys ts [] t.name).mpr (Or.inr ⟨t, ht, rfl⟩)
    rcases List.mem_map.mp this with ⟨p, hp, hfst⟩
    exact ⟨p.2, List.mem_map.mpr ⟨p, hp, rfl⟩, by rw [← hinv.2 p hp, hfst]⟩

/-- Witness for `C5_dedup_last_wins`: two tools named `a` and one named `b`;
the dedup keeps the later `a`-tool. -/
theorem C5_dedup_last_wins_witness :
    dedup_tools [⟨"a", 0⟩, ⟨"a", 1⟩, ⟨"b", 2⟩] = [⟨"a", 1⟩, ⟨"b", 2⟩] ∧
    (∀ t ∈ dedup_tools [⟨"a", 0⟩, ⟨"a", 1⟩, ⟨"b", 2⟩],
      lastNamed [⟨"a", 0⟩, ⟨"a", 1⟩, ⟨"b", 2⟩] t.name = some t) :=
  ⟨rfl, (C5_dedup_last_wins [⟨"a", 0⟩, ⟨"a", 1⟩, ⟨"b", 2⟩]).2.1⟩

/-! ## C1: runtime cache — reuse when fresh, exactly one rebuild when stale -/

theorem initialize_agent_ok (cfg : Config) (rs : Resolvers) (w : World) (aid : String)
    (a : Agent) (ts : List Tool) (ha : w.config aid = some a)
    (hts : (load_tools a (w.agent_data aid) rs).2 = .ok ts) :
    (initialize_agent cfg rs w aid).2 =
      .ok (built_pipeline cfg a (w.agent_data aid) ts w.build_serial) ∧
    (initialize_agent cfg rs w aid).1.build_serial = w.build_serial + 1 ∧
    (initialize_agent cfg rs w aid).1.agents aid =
      some (built_pipeline cfg a (w.agent_data aid) ts w.build_serial) ∧
    (initialize_agent cfg rs w aid).1.agents_updated aid = some a.updated_at := by
  rcases hlt : load_tools a (w.agent_data aid) rs with ⟨write, tr⟩
  have htr : tr = .ok ts := by rw [hlt] at hts; exact hts
  subst htr
  cases write <;> simp [initialize_agent, ha, hlt]

theorem execute_agent_hit (cfg : Config) (rs : Resolvers) (w : World)
    (aid thread_id : String) (msg : AgentMessageInput) (debug : Bool)
    (chunks : List Chunk) (snap : Except String (List (String × String)))
    (a : Agent) (p : CompiledPipeline) (ha : w.config aid = some a)
    (hp : w.agents aid = some p) (hu : w.agents_updated aid = some a.updated_at) :
    execute_agent cfg rs w aid thread_id msg debug chunks snap =
      (w, .ok (p, run_result cfg a thread_id msg debug [] chunks snap)) := by
  simp [execute_agent, ha, hp, hu]

theorem execute_agent_rebuild (cfg : Config) (rs : Resolvers) (w : World)
    (aid thread_id : String) (msg : AgentMessageInput) (debug : Bool)
    (chunks : List Chunk) (snap : Except String (List (String × String)))
    (a : Agent) (ts : List Tool) (ha : w.config aid = some a)
    (hmiss : w.agents aid = none ∨ w.agents_updated aid ≠ some a.updated_at)
    (hts : (load_tools a (w.agent_data aid) rs).2 = .ok ts) :
    execute_agent cfg rs w aid thread_id msg debug chunks snap =
      ((initialize_agent cfg rs w aid).1,
       .ok (built_pipeline cfg a (w.agent_data aid) ts w.build_serial,
            run_result cfg a thread_id msg debug
              [(if (w.agents aid).isSome then Seg.reinitialized else Seg.coldStart),
               Seg.startCost] chunks snap)) := by
  obtain ⟨h2, _, _, _⟩ := initialize_agent_ok cfg rs w aid a ts ha hts
  rcases hinit : initialize_agent cfg rs w aid with ⟨w', pres⟩
  rw [hinit] at h2
  simp only at h2
  rcases hmiss with hm | hm
  · simp [execute_agent, ha, hm, hinit, h2]
  · cases hw : w.agents aid with
    | none => simp [execute_agent, ha, hw, hinit, h2]
    | some p =>
      have hb : (w.agents_updated aid != some a.updated_at) = true := bne_iff_ne.mpr hm
      simp [execute_agent, ha, hw, hinit, h2, hb]

/-- C1: for a cached identity whose recorded build version equals the
config's current `updated_at`, execution performs no rebuild and returns
the identical cached pipeline object with the world unchanged; for a
missing entry or differing version, exactly one build runs (build counter
advances by one) and the entry is replaced by the freshly built pipeline,
its recorded version being the `updated_at` fetched during that build. -/
theorem C1_runtime_cache (cfg : Config) (rs : Resolvers) (w : World)
    (aid thread_id : String) (msg : AgentMessageInput) (debug : Bool)
    (chunks : List Chunk) (snap : Except String (List (String × String)))
    (a : Agent) (ha : w.config aid = some a) :
    (∀ p, w.agents aid = some p → w.agents_updated aid = some a.updated_at →
      execute_agent cfg rs w aid thread_id msg debug chunks snap =
        (w, .ok (p, run_result cfg a thread_id msg debug [] chunks snap))) ∧
    ((w.agents aid = none ∨ w.agents_updated aid ≠ some a.updated_at) →
      ∀ ts, (load_tools a (w.agent_data aid) rs).2 = .ok ts →
      (execute_agent cfg rs w aid thread_id msg debug chunks snap).1.build_serial
          = w.build_serial + 1 ∧
      (execute_agent cfg rs w aid thread_id msg debug chunks snap).1.agents aid
          = some (built_pipeline cfg a (w.agent_data aid) ts w.build_serial) ∧
      (execute_agent cfg rs w aid thread_id msg debug chunks snap).1.agents_updated aid
          = some a.updated_at ∧
      ∃ r, (execute_agent cfg rs w aid thread_id msg debug chunks snap).2 =
          .ok (built_pipeline cfg a (w.agent_data aid) ts w.build_serial, r)) := by
  constructor
  · intro p hp hu
    exact execute_agent_hit cfg rs w aid thread_id msg debug chunks snap a p ha hp hu
  · intro hmiss ts hts
    obtain ⟨_, hbs, hag, hau⟩ := initialize_agent_ok cfg rs w aid a ts ha hts
    rw [execute_agent_rebuild cfg rs w aid thread_id msg debug chunks snap a ts
        ha hmiss hts]
    exact ⟨hbs, hag, hau, ⟨_, rfl⟩⟩

/-- Concrete data for the cache witness. -/
def c1Agent : Agent :=
  ⟨none, "gpt-4o", some "p", none, 7, false, none, [], false, [], false, [], [], [], []⟩

def c1Pipe : CompiledPipeline := ⟨⟨"gpt-4o", .openai, none⟩, 120000, [], [], 0⟩

def okResolvers : Resolvers :=
  ⟨fun _ => .ok [], "w0", fun _ => .ok ⟨"e", 0⟩, fun _ => .ok ⟨"t", 0⟩,
   fun _ => .ok ⟨"c", 0⟩, fun _ => .ok ⟨"m", 0⟩, fun _ _ => .ok []⟩

def c1HitWorld : World :=
  ⟨fun x => if x = "a" then some c1Agent else none,
   fun _ => none,
   fun x => if x = "a" then some c1Pipe else none,
   fun x => if x = "a" then some 7 else none, 3⟩

def c1MissWorld : World :=
  ⟨fun x => if x = "a" then some c1Agent else none,
   fun _ => none, fun _ => none, fun _ => none, 3⟩

/-- Witness for `C1_runtime_cache`: a fresh cache hit returns the cached
pipeline with no rebuild; a cold start performs exactly one build. -/
theorem C1_runtime_cache_witness :
    (c1HitWorld.config "a" = some c1Agent ∧
     c1HitWorld.agents "a" = some c1Pipe ∧
     c1HitWorld.agents_updated "a" = some c1Agent.updated_at ∧
     execute_agent ⟨none⟩ okResolvers c1HitWorld "a" "t1" ⟨"hi", []⟩ false [] (.ok []) =
       (c1HitWorld,
        .ok (c1Pipe, run_result ⟨none⟩ c1Agent "t1" ⟨"hi", []⟩ false [] [] (.ok [])))) ∧
    (c1MissWorld.agents "a" = none ∧
     (load_tools c1Agent (c1MissWorld.agent_data "a") okResolvers).2 = .ok [] ∧
     (execute_agent ⟨none⟩ okResolvers c1MissWorld "a" "t1" ⟨"hi", []⟩ false [] (.ok [])).1.build_serial = 4) := by
  refine ⟨⟨rfl, rfl, rfl, ?_⟩, rfl, rfl, ?_⟩
  · exact (C1_runtime_cache ⟨none⟩ okResolvers c1HitWorld "a" "t1" ⟨"hi", []⟩ false []
      (.ok []) c1Agent rfl).1 c1Pipe rfl rfl
  · exact ((C1_runtime_cache ⟨none⟩ okResolvers c1MissWorld "a" "t1" ⟨"hi", []⟩ false []
      (.ok []) c1Agent rfl).2 (Or.inl rfl) [] rfl).1

/-! ## C6: deepseek routing -/

theorem prompt_array_mem_system (cfg : Config) (a : Agent) (ad : Option AgentData) :
    ("system", escapeBraces (agent_prompt cfg a)) ∈ prompt_array cfg a ad := by
  unfold prompt_array
  by_cases htw : twitter_prompt_text a ad ≠ "" <;>
    by_cases hd : strIsPref "deepseek" a.model <;>
      by_cases hap : strTruthy a.prompt_append <;>
        simp [htw, hd, hap]

/-- C6: an agent whose model selector carries the reserved `deepseek`
prefix is bound to the alternate endpoint and credential, its input-token
budget is capped at 60000 (the default otherwise being 120000), its
compiled tool set is forced empty, and the rendered system prompt is
retained in the prompt template. -/
theorem C6_deepseek_routing (cfg : Config) (rs : Resolvers) (w : World) (aid : String)
    (a : Agent) (ha : w.config aid = some a)
    (hd : strIsPref "deepseek" a.model = true)
    (ts : List Tool) (hts : (load_tools a (w.agent_data aid) rs).2 = .ok ts) :
    ∃ pipe, (initialize_agent cfg rs w aid).2 = .ok pipe ∧
      pipe.llm.api_key = ApiCredential.deepseek ∧
      pipe.llm.api_base = some "https://api.deepseek.com" ∧
      pipe.input_token_limit = 60000 ∧
      pipe.tools = [] ∧
      ("system", escapeBraces (agent_prompt cfg a)) ∈ pipe.prompts ∧
      (∀ b : Agent, strIsPref "deepseek" b.model = false → (init_llm b).2 = 120000) := by
  obtain ⟨h2, _, _, _⟩ := initialize_agent_ok cfg rs w aid a ts ha hts
  refine ⟨_, h2, ?_, ?_, ?_, ?_, ?_, ?_⟩
  · simp [built_pipeline, init_llm, hd]
  · simp [built_pipeline, init_llm, hd]
  · simp [built_pipeline, init_llm, hd]
  · simp [built_pipeline, hd]
  · simpa [built_pipeline] using prompt_array_mem_system cfg a (w.agent_data aid)
  · intro b hb; simp [init_llm, hb]

def c6Agent : Agent :=
  ⟨none, "deepseek-chat", some "p", none, 1, false, none, [], false, [], false,
   [], [], [], []⟩

def c6World : World :=
  ⟨fun x => if x = "a" then some c6Agent else none,
   fun _ => none, fun _ => none, fun _ => none, 0⟩

/-- Witness for `C6_deepseek_routing` at a concrete deepseek agent. -/
theorem C6_deepseek_routing_witness :
    (c6World.config "a" = some c6Agent ∧
     strIsPref "deepseek" c6Agent.model = true ∧
     (load_tools c6Agent (c6World.agent_data "a") okResolvers).2 = .ok []) ∧
    (∃ pipe, (initialize_agent ⟨none⟩ okResolvers c6World "a").2 = .ok pipe ∧
      pipe.llm.api_key = ApiCredential.deepseek ∧
      pipe.llm.api_base = some "https://api.deepseek.com" ∧
      pipe.input_token_limit = 60000 ∧
      pipe.tools = [] ∧
      ("system", escapeBraces (agent_prompt ⟨none⟩ c6Agent)) ∈ pipe.prompts ∧
      (∀ b : Agent, strIsPref "deepseek" b.model = false → (init_llm b).2 = 120000)) :=
  ⟨⟨rfl, by decide, rfl⟩,
   C6_deepseek_routing ⟨none⟩ okResolvers c6World "a" c6Agent rfl (by decide) [] rfl⟩

/-! ## C7: one-time wallet persistence -/

theorem set_wallet_field (ad : Option AgentData) (wd : String) :
    (set_wallet ad wd).cdp_wallet_data = some wd := by
  cases ad <;> rfl

theorem initialize_agent_data (cfg : Config) (rs : Resolvers) (w : World)
    (aid : String) (a : Agent) (ha : w.config aid = some a) :
    (initialize_agent cfg rs w aid).1.agent_data aid =
      (match (load_tools a (w.agent_data aid) rs).1 with
       | some wd => some (set_wallet (w.agent_data aid) wd)
       | none => w.agent_data aid) := by
  rcases hlt : load_tools a (w.agent_data aid) rs with ⟨write, tr⟩
  cases write <;> cases tr <;> simp [initialize_agent, ha, hlt]

/-- C7: with the CDP capability enabled, a build reuses wallet data already
present in the runtime store and never overwrites it; when absent, the
wallet held by the freshly constructed agentkit is persisted to the runtime
store before the build returns, and a subsequent build from that store
performs no further write. -/
theorem C7_wallet_persistence (cfg : Config) (rs : Resolvers) (w : World) (aid : String)
    (a : Agent) (ha : w.config aid = some a) (hc : a.cdp_enabled = true)
    (kitTools : List Tool) (hkit : ∀ s, rs.cdp_toolkit s = .ok kitTools)
    (hfw : rs.fresh_wallet ≠ "") :
    (∀ wd, dataWallet (w.agent_data aid) = some wd →
      (∃ fts, cdp_block a (w.agent_data aid) rs = .ok (fts, none, wd)) ∧
      (initialize_agent cfg rs w aid).1.agent_data aid = w.agent_data aid) ∧
    (dataWallet (w.agent_data aid) = none →
      ∃ fts w0, cdp_block a (w.agent_data aid) rs = .ok (fts, some w0, w0) ∧
        w0 ≠ "" ∧
        (initialize_agent cfg rs w aid).1.agent_data aid
          = some (set_wallet (w.agent_data aid) w0) ∧
        (∃ fts2, cdp_block a (some (set_wallet (w.agent_data aid) w0)) rs
          = .ok (fts2, none, w0))) := by
  have hreuse : ∀ (ad : Option AgentData) (wd : String), dataWallet ad = some wd →
      cdp_block a ad rs = .ok
        ((if a.cdp_skills ≠ [] then
            kitTools.filter (fun t => a.cdp_skills.contains t.name)
          else kitTools), none, wd) := by
    intro ad wd hdw
    simp [cdp_block, hc, hdw, hkit]
  constructor
  · intro wd hdw
    refine ⟨⟨_, hreuse _ wd hdw⟩, ?_⟩
    rw [initialize_agent_data cfg rs w aid a ha]
    have hw : (load_tools a (w.agent_data aid) rs).1 = none := by
      simp [load_tools, hreuse _ wd hdw]
    rw [hw]
  · intro hdw
    set w0 := (if strTruthy a.cdp_wallet_data then a.cdp_wallet_data
               else none).getD rs.fresh_wallet with hw0
    have hcdpeq : cdp_block a (w.agent_data aid) rs = .ok
        ((if a.cdp_skills ≠ [] then
            kitTools.filter (fun t => a.cdp_skills.contains t.name)
          else kitTools), some w0, w0) := by
      simp [cdp_block, hc, hdw, hkit, hw0]
    have hw0ne : w0 ≠ "" := by
      rw [hw0]
      cases hcw : a.cdp_wallet_data with
      | none => simpa [strTruthy] using hfw
      | some s =>
        by_cases hs : s = ""
        · simpa [strTruthy, hs] using hfw
        · simp [strTruthy, hs]
    refine ⟨_, w0, hcdpeq, hw0ne, ?_, ?_⟩
    · rw [initialize_agent_data cfg rs w aid a ha]
      have hw : (load_tools a (w.agent_data aid) rs).1 = some w0 := by
        simp [load_tools, hcdpeq]
      rw [hw]
    · refine ⟨_, hreuse _ w0 ?_⟩
      simp [dataWallet, set_wallet_field, strTruthy, hw0ne]

def c7Agent : Agent :=
  ⟨none, "gpt-4o", some "p", none, 1, true, none, [], false, [], false,
   [], [], [], []⟩

def c7World : World :=
  ⟨fun x => if x = "a" then some c7Agent else none,
   fun _ => none, fun _ => none, fun _ => none, 0⟩

/-- Witness for `C7_wallet_persistence`: no runtime wallet yet, so the
fresh wallet is persisted and a second build would not write again. -/
theorem C7_wallet_persistence_witness :
    (c7World.config "a" = some c7Agent ∧ c7Agent.cdp_enabled = true ∧
     (∀ s, okResolvers.cdp_toolkit s = .ok []) ∧ okResolvers.fresh_wallet ≠ "" ∧
     dataWallet (c7World.agent_data "a") = none) ∧
    (∃ fts w0, cdp_block c7Agent (c7World.agent_data "a") okResolvers
        = .ok (fts, some w0, w0) ∧
      w0 ≠ "" ∧
      (initialize_agent ⟨none⟩ okResolvers c7World "a").1.agent_data "a"
        = some (set_wallet (c7World.agent_data "a") w0) ∧
      (∃ fts2, cdp_block c7Agent (some (set_wallet (c7World.agent_data "a") w0))
        okResolvers = .ok (fts2, none, w0))) :=
  ⟨⟨rfl, rfl, fun _ => rfl, by decide, rfl⟩,
   (C7_wallet_persistence ⟨none⟩ okResolvers c7World "a" c7Agent rfl rfl []
      (fun _ => rfl) (by decide)).2 rfl⟩

/-! ## C2: only the Enso capability tolerates setup failures -/

def c2Agent : Agent :=
  ⟨none, "gpt-4o", some "p", none, 1, false, none, [], false, [], false,
   ["post_tweet"], [], [], []⟩

def c2Resolvers : Resolvers :=
  ⟨fun _ => .ok [], "w0", fun _ => .ok ⟨"e", 0⟩, fun _ => .error "twitter down",
   fun _ => .ok ⟨"c", 0⟩, fun _ => .ok ⟨"m", 0⟩, fun _ _ => .ok []⟩

def c2World : World :=
  ⟨fun x => if x = "a" then some c2Agent else none,
   fun _ => none, fun _ => none, fun _ => none, 0⟩

/-- C2 counterexample: a social-posting (Twitter) skill whose setup throws
aborts the whole build — `initialize_agent` propagates the error instead of
skipping the capability. -/
theorem C2_counterexample :
    (initialize_agent ⟨none⟩ c2Resolvers c2World "a").2 =
      .error (.buildError "twitter down") ∧
    c2Agent.twitter_skills = ["post_tweet"] :=
  ⟨rfl, rfl⟩

theorem enso_fold_filterMap (f : String → Except String Tool) (l : List String) :
    ∀ acc : List Tool,
      l.foldl (fun acc s =>
        match f s with
        | .ok t => acc ++ [t]
        | .error _ => acc) acc
        = acc ++ l.filterMap (fun s => (f s).toOption) := by
  induction l with
  | nil => intro acc; simp
  | cons s l ih =>
    intro acc
    cases hf : f s <;> simp [hf, ih, Except.toOption]

/-- C2 (amended): only the swap/route (Enso) capability catches per-skill
setup failures — a failing Enso skill is skipped with a warning and the
build still completes, for any behaviour of the Enso resolver; setup
failures in the wallet, social-posting, generic/common, or bundle
categories propagate and abort the build (see `C2_counterexample`). -/
theorem C2_only_enso_skipped (a : Agent) (ad : Option AgentData) (rs : Resolvers)
    (cdpTs : List Tool) (write : Option String) (wu : String)
    (hcdp : cdp_block a ad rs = .ok (cdpTs, write, wu))
    (twTs crTs coTs ssTs : List Tool)
    (htw : twitter_tools a rs = .ok twTs)
    (hcr : crestal_tools a rs = .ok crTs)
    (hco : common_tools a rs = .ok coTs)
    (hss : skill_set_tools a rs = .ok ssTs) :
    (load_tools a ad rs).2 =
      .ok (cdpTs ++ enso_tools a rs ++ twTs ++ crTs ++ coTs ++ ssTs) ∧
    enso_tools a rs =
      (if a.enso_skills ≠ [] ∧ a.enso_config then
        a.enso_skills.filterMap (fun s => (rs.enso s).toOption) else []) := by
  constructor
  · simp [load_tools, hcdp, htw, hcr, hco, hss]
  · unfold enso_tools
    by_cases h : a.enso_skills ≠ [] ∧ a.enso_config
    · rw [if_pos h, if_pos h]
      simpa using enso_fold_filterMap rs.enso a.enso_skills []
    · rw [if_neg h, if_neg h]

def c2wAgent : Agent :=
  ⟨none, "gpt-4o", some "p", none, 1, false, none, [], false, ["s1", "s2"], true,
   [], [], [], []⟩

def c2wResolvers : Resolvers :=
  ⟨fun _ => .ok [], "w0", fun s => if s = "s1" then .error "enso fail" else .ok ⟨"s2", 9⟩,
   fun _ => .ok ⟨"t", 0⟩, fun _ => .ok ⟨"c", 0⟩, fun _ => .ok ⟨"m", 0⟩,
   fun _ _ => .ok []⟩

/-- Witness for `C2_only_enso_skipped`: of two Enso skills one fails; the
build completes with only the surviving tool. -/
theorem C2_only_enso_skipped_witness :
    (cdp_block c2wAgent none c2wResolvers = .ok ([], none, "w0") ∧
     twitter_tools c2wAgent c2wResolvers = .ok [] ∧
     crestal_tools c2wAgent c2wResolvers = .ok [] ∧
     common_tools c2wAgent c2wResolvers = .ok [] ∧
     skill_set_tools c2wAgent c2wResolvers = .ok []) ∧
    ((load_tools c2wAgent none c2wResolvers).2 =
      .ok ([] ++ enso_tools c2wAgent c2wResolvers ++ [] ++ [] ++ [] ++ []) ∧
     enso_tools c2wAgent c2wResolvers =
      (if c2wAgent.enso_skills ≠ [] ∧ c2wAgent.enso_config then
        c2wAgent.enso_skills.filterMap (fun s => (c2wResolvers.enso s).toOption)
       else [])) ∧
    enso_tools c2wAgent c2wResolvers = [⟨"s2", 9⟩] :=
  ⟨⟨rfl, rfl, rfl, rfl, rfl⟩,
   C2_only_enso_skipped c2wAgent none c2wResolvers [] none "w0" rfl [] [] [] []
     rfl rfl rfl rfl,
   rfl⟩

/-! ## C8 and C9: debug-mode degradation and the thinking placeholder -/

theorem execute_agent_runs (cfg : Config) (rs : Resolvers) (w : World)
    (aid thread_id : String) (msg : AgentMessageInput) (debug : Bool)
    (chunks : List Chunk) (snap : Except String (List (String × String)))
    (a : Agent) (ha : w.config aid = some a)
    (hready : (∃ p, w.agents aid = some p ∧ w.agents_updated aid = some a.updated_at) ∨
              (∃ ts, (load_tools a (w.agent_data aid) rs).2 = .ok ts)) :
    ∃ pipe rsegs,
      (execute_agent cfg rs w aid thread_id msg debug chunks snap).2 =
        .ok (pipe, run_result cfg a thread_id msg debug rsegs chunks snap) := by
  by_cases hhit : ∃ p, w.agents aid = some p ∧ w.agents_updated aid = some a.updated_at
  · rcases hhit with ⟨p, hp, hu⟩
    exact ⟨p, [],
      by rw [execute_agent_hit cfg rs w aid thread_id msg debug chunks snap a p ha hp hu]⟩
  · have hts : ∃ ts, (load_tools a (w.agent_data aid) rs).2 = .ok ts := by
      rcases hready with h | h
      · exact absurd h hhit
      · exact h
    rcases hts with ⟨ts, hts⟩
    have hmiss : w.agents aid = none ∨ w.agents_updated aid ≠ some a.updated_at := by
      cases hw : w.agents aid with
      | none => exact Or.inl rfl
      | some p => exact Or.inr (fun hc => hhit ⟨p, hw, hc⟩)
    exact ⟨_, _,
      by rw [execute_agent_rebuild cfg rs w aid thread_id msg debug chunks snap a ts
               ha hmiss hts]⟩

theorem agentText_mem_stream (chunks : List Chunk) (v : String)
    (hm : Chunk.agent v ∈ chunks) (hv : v ≠ "") :
    Seg.agentText v ∈ stream_segs chunks := by
  unfold stream_segs
  refine List.mem_flatten.mpr ⟨chunk_segs (Chunk.agent v),
    List.mem_map.mpr ⟨Chunk.agent v, hm, rfl⟩, ?_⟩
  simp [chunk_segs, hv]

/-- C8: in a debug-mode run whose snapshot fetch fails, the call still
succeeds; the trace ends with an empty debug block, and every nonempty
model-turn payload is still present in the returned trace. -/
theorem C8_debug_snapshot_failure (cfg : Config) (rs : Resolvers) (w : World)
    (aid thread_id : String) (msg : AgentMessageInput) (chunks : List Chunk)
    (a : Agent) (e : String) (ha : w.config aid = some a)
    (hready : (∃ p, w.agents aid = some p ∧ w.agents_updated aid = some a.updated_at) ∨
              (∃ ts, (load_tools a (w.agent_data aid) rs).2 = .ok ts)) :
    ∃ pipe segs,
      (execute_agent cfg rs w aid thread_id msg true chunks (.error e)).2 =
        .ok (pipe, .debugOut segs) ∧
      segs.getLast? = some (Seg.debugBlock "") ∧
      (∀ v, Chunk.agent v ∈ chunks → v ≠ "" → Seg.agentText v ∈ segs) := by
  rcases execute_agent_runs cfg rs w aid thread_id msg true chunks (.error e) a ha
      hready with ⟨pipe, rsegs, heq⟩
  refine ⟨pipe,
    (([Seg.thread thread_id, Seg.inputMsg msg.text msg.images] ++ rsegs)
      ++ stream_segs chunks ++ [Seg.totalTime]) ++ [Seg.debugBlock ""], ?_, ?_, ?_⟩
  · rw [heq]; rfl
  · exact List.getLast?_concat _
  · intro v hv hne
    have hm := agentText_mem_stream chunks v hv hne
    simp [List.mem_append, hm]

/-- Witness for `C8_debug_snapshot_failure`: warm cache, one model turn,
snapshot fetch raising. -/
theorem C8_debug_snapshot_failure_witness :
    (c1HitWorld.config "a" = some c1Agent ∧
     c1HitWorld.agents "a" = some c1Pipe ∧
     c1HitWorld.agents_updated "a" = some c1Agent.updated_at) ∧
    (∃ pipe segs,
      (execute_agent ⟨none⟩ okResolvers c1HitWorld "a" "t1" ⟨"hi", []⟩ true
        [Chunk.agent "out"] (.error "boom")).2 = .ok (pipe, .debugOut segs) ∧
      segs.getLast? = some (Seg.debugBlock "") ∧
      (∀ v, Chunk.agent v ∈ [Chunk.agent "out"] → v ≠ "" → Seg.agentText v ∈ segs)) :=
  ⟨⟨rfl, rfl, rfl⟩,
   C8_debug_snapshot_failure ⟨none⟩ okResolvers c1HitWorld "a" "t1" ⟨"hi", []⟩
     [Chunk.agent "out"] c1Agent "boom" rfl (Or.inl ⟨c1Pipe, rfl, rfl⟩)⟩

theorem thinking_adjacent (chunks : List Chunk) (hm : Chunk.agent "" ∈ chunks) :
    ∃ l1 l2, stream_segs chunks = l1 ++ [Seg.agentThinking, Seg.agentCost] ++ l2 := by
  rcases List.append_of_mem hm with ⟨s, t, rfl⟩
  exact ⟨stream_segs s, stream_segs t, by simp [stream_segs, chunk_segs]⟩

/-- C9: a model turn with no visible text yields, in the debug trace, the
thinking placeholder immediately followed by its timing line; and when no
model turn produces text, the normal-mode answer is empty. -/
theorem C9_thinking_placeholder (cfg : Config) (rs : Resolvers) (w : World)
    (aid thread_id : String) (msg : AgentMessageInput) (chunks : List Chunk)
    (snap : Except String (List (String × String)))
    (a : Agent) (ha : w.config aid = some a)
    (hready : (∃ p, w.agents aid = some p ∧ w.agents_updated aid = some a.updated_at) ∨
              (∃ ts, (load_tools a (w.agent_data aid) rs).2 = .ok ts))
    (hmem : Chunk.agent "" ∈ chunks) :
    (∃ pipe l1 l2,
      (execute_agent cfg rs w aid thread_id msg true chunks snap).2 =
        .ok (pipe, .debugOut (l1 ++ [Seg.agentThinking, Seg.agentCost] ++ l2))) ∧
    ((∀ v, Chunk.agent v ∈ chunks → v = "") →
      ∃ pipe2, (execute_agent cfg rs w aid thread_id msg false chunks snap).2 =
        .ok (pipe2, .normalOut [])) := by
  constructor
  · rcases execute_agent_runs cfg rs w aid thread_id msg true chunks snap a ha
        hready with ⟨pipe, rsegs, heq⟩
    rcases thinking_adjacent chunks hmem with ⟨l1, l2, hsp⟩
    refine ⟨pipe,
      [Seg.thread thread_id, Seg.inputMsg msg.text msg.images] ++ rsegs ++ l1,
      l2 ++ [Seg.totalTime] ++
        [Seg.debugBlock (render_debug_block cfg a snap)], ?_⟩
    rw [heq]
    simp [run_result, hsp]
  · intro hall
    rcases execute_agent_runs cfg rs w aid thread_id msg false chunks snap a ha
        hready with ⟨pipe2, rsegs2, heq2⟩
    refine ⟨pipe2, ?_⟩
    rw [heq2]
    have hnil : stream_resp chunks = [] := by
      apply List.filterMap_eq_nil_iff.mpr
      intro c hc
      cases c with
      | agent v => simp [hall v hc]
      | tool v => rfl
    simp [run_result, hnil]

/-- Witness for `C9_thinking_placeholder`: warm cache, one silent model
turn. -/
theorem C9_thinking_placeholder_witness :
    (c1HitWorld.config "a" = some c1Agent ∧
     Chunk.agent "" ∈ [Chunk.agent ""]) ∧
    ((∃ pipe l1 l2,
      (execute_agent ⟨none⟩ okResolvers c1HitWorld "a" "t1" ⟨"hi", []⟩ true
        [Chunk.agent ""] (.ok [])).2 =
        .ok (pipe, .debugOut (l1 ++ [Seg.agentThinking, Seg.agentCost] ++ l2))) ∧
     ((∀ v, Chunk.agent v ∈ [Chunk.agent ""] → v = "") →
      ∃ pipe2, (execute_agent ⟨none⟩ okResolvers c1HitWorld "a" "t1" ⟨"hi", []⟩ false
        [Chunk.agent ""] (.ok [])).2 = .ok (pipe2, .normalOut []))) :=
  ⟨⟨rfl, List.mem_singleton.mpr rfl⟩,
   C9_thinking_placeholder ⟨none⟩ okResolvers c1HitWorld "a" "t1" ⟨"hi", []⟩
     [Chunk.agent ""] (.ok []) c1Agent rfl (Or.inl ⟨c1Pipe, rfl, rfl⟩)
     (List.mem_singleton.mpr rfl)⟩

end IntentKit
